import Mathlib

/-!
Verification of the genicam device plugin core: the reservation validator
(`Reserve`), the discovery/fingerprint cycle (`writeFingerprintToChannel`),
the grouping of discovered devices by model
(`deviceGroupFromFingerprintData`), and the lock discipline of the poll
cycle. Every definition is a shallow embedding of the corresponding Go
function; Go maps are embedded as association lists with map-assignment
(upsert) semantics, and the two reads of the shared device map inside
`Reserve` are given two separate snapshot parameters so that the interleaving
with a concurrent fingerprint cycle can be expressed.
-/

namespace Genicam

/-- Environment variable name for the reserved device's serial number
(constant `deviceSerialNbr` in the source). -/
def deviceSerialNbr : String := "GENICAM_DEVICE_SERIAL_NBR"

/-- Environment variable name for the reserved device's address
(constant `deviceAddress` in the source). -/
def deviceAddress : String := "GENICAM_DEVICE_ADDRESS"

/-- Vendor label constant (`vendor = "tis"` in the source). -/
def vendor : String := "tis"

/-- Device type constant (`deviceType = "genicam"` in the source). -/
def deviceType : String := "genicam"

/-- A Go `map[string]string` embedded as an association list. The plugin's
device cache `d.devices` maps a serial number to an address; the reservation
response's `Envs` map has the same type. -/
abbrev GoStringMap := List (String × String)

/-- Lookup in an association list: the Go expression `m[k]` together with its
`found` flag, `none` standing for "not found". Polymorphic in the value type
so that it serves both the string cache and the grouping map. -/
def alistLookup {β : Type} : List (String × β) → String → Option β
  | [], _ => none
  | (k, v) :: rest, a => if a = k then some v else alistLookup rest a

/-- Map assignment `m[k] = v` of Go: replace the binding of `k` when present,
append a new binding otherwise. -/
def alistUpsert : GoStringMap → String → String → GoStringMap
  | [], k, v => [(k, v)]
  | (k', v') :: rest, k, v =>
    if k' = k then (k, v) :: rest else (k', v') :: alistUpsert rest k v

/-- Errors `Reserve` can return: `errPluginDisabled`, the aggregated
`reservationError` carrying `notExistingIDs`, and the
`codes.InvalidArgument` "unknown device" status of the response-building
loop. -/
inductive ReserveError
  | pluginDisabled
  | reservationError (notExistingIDs : List String)
  | unknownDevice (serial : String)
  deriving DecidableEq, Repr

/-- Message of the aggregated reservation error
(`Error()` of `reservationError` in the source). -/
def reservationErrorMessage (notExistingIDs : List String) : String :=
  "unknown device IDs: " ++ String.intercalate "," notExistingIDs

/-- The `device.ContainerReservation` response: environment entries, mounts
and device specs (the latter two always left empty by this plugin; their
element types are irrelevant here). -/
structure ContainerReservation where
  envs : GoStringMap
  mounts : List Unit
  deviceSpecs : List Unit
  deriving DecidableEq, Repr

/-- Response-building loop of `Reserve` (source lines 228-239): for each
requested serial number, look it up in the device map snapshot `devices2`;
on a miss return the "unknown device" error, otherwise assign the fixed keys
`deviceSerialNbr` and `deviceAddress` in the `Envs` map and continue. -/
def buildEnvs (devices2 : GoStringMap) : List String → GoStringMap →
    Except ReserveError GoStringMap
  | [], envs => .ok envs
  | serialNbr :: rest, envs =>
    match alistLookup devices2 serialNbr with
    | none => .error (.unknownDevice serialNbr)
    | some address =>
      buildEnvs devices2 rest
        (alistUpsert (alistUpsert envs deviceSerialNbr serialNbr) deviceAddress address)

/-- The `Reserve` method. `devices1` is the snapshot of `d.devices` read
under the read lock during the membership pass (source lines 209-216);
`devices2` is the snapshot read, without any lock, by the response-building
loop (lines 228-239). In a run with no interleaved fingerprint cycle the two
snapshots coincide (`Reserve` below). Control flow follows the source: empty
input returns an empty reservation before anything else; then the enabled
flag is checked; then all identifiers absent from `devices1` are collected
and, if any, returned in one `reservationError`; finally the response is
built from `devices2`. -/
def ReserveTwoPhase (enabled : Bool) (devices1 devices2 : GoStringMap)
    (deviceIDs : List String) : Except ReserveError ContainerReservation :=
  if deviceIDs.length = 0 then
    .ok { envs := [], mounts := [], deviceSpecs := [] }
  else if !enabled then
    .error .pluginDisabled
  else
    let notExistingIDs := deviceIDs.filter fun id => (alistLookup devices1 id).isNone
    if notExistingIDs.length ≠ 0 then
      .error (.reservationError notExistingIDs)
    else
      match buildEnvs devices2 deviceIDs [] with
      | .error e => .error e
      | .ok envs => .ok { envs := envs, mounts := [], deviceSpecs := [] }

/-- Specializes `ReserveTwoPhase` to an unchanging device map: both reads of
`d.devices` observe the same state. -/
def Reserve (enabled : Bool) (devices : GoStringMap) (deviceIDs : List String) :
    Except ReserveError ContainerReservation :=
  ReserveTwoPhase enabled devices devices deviceIDs

/-- Whether an `Except` result is a success (`err == nil` in Go). -/
def reserveOk : Except ReserveError ContainerReservation → Bool
  | .ok _ => true
  | .error _ => false

/-- Environment entry of a reservation result: `none` when the reservation
failed or the key is absent. -/
def reserveEnv (res : Except ReserveError ContainerReservation) (key : String) :
    Option String :=
  match res with
  | .ok r => alistLookup r.envs key
  | .error _ => none

/-- One enumeration-session handle (`aravis.ArvDevice`). Each accessor of the
binding returns `(string, error)`; here an accessor's outcome is recorded as
`Option String`, `none` standing for a non-nil error (whose text is only
logged by the caller). -/
structure ArvDevice where
  id : Option String
  physicalId : Option String
  model : Option String
  serialNbr : Option String
  vendor : Option String
  address : Option String
  protocol : Option String
  deriving DecidableEq, Repr

/-- Device descriptor assembled from one handle's fully-read attributes
(struct `fingerprintedDevice` in the source). -/
structure fingerprintedDevice where
  device_id : String
  physical_id : String
  model : String
  serial_nbr : String
  vendor : String
  address : String
  protocol : String
  deriving DecidableEq, Repr

/-- Attribute-reading part of the discovery loop body (source lines 60-113):
read the seven identity attributes in order; the first failing read makes the
loop `continue` (here: return `none`), otherwise the descriptor is built. -/
def readFingerprintedDevice (dev : ArvDevice) : Option fingerprintedDevice := do
  let device_id ← dev.id
  let physical_id ← dev.physicalId
  let model ← dev.model
  let serial_nbr ← dev.serialNbr
  let vendor ← dev.vendor
  let address ← dev.address
  let protocol ← dev.protocol
  pure { device_id, physical_id, model, serial_nbr, vendor, address, protocol }

/-- Discovery loop of `writeFingerprintToChannel` (source lines 60-114): a
handle whose attributes all read successfully is appended to
`discoveredDevices`; a failed read skips only that handle. -/
def discoverDevices : List ArvDevice → List fingerprintedDevice
  | [] => []
  | dev :: rest =>
    match readFingerprintedDevice dev with
    | none => discoverDevices rest
    | some d => d :: discoverDevices rest

/-- A Go `map[string][]*fingerprintedDevice` embedded as an association list
whose key order is first-insertion order (Go map iteration order is
unspecified; no claim below depends on the order of distinct keys). -/
abbrev GroupMap := List (String × List fingerprintedDevice)

/-- Map-append `m[dev.model] = append(m[dev.model], dev)` (source line 123):
append `dev` to its model's list, creating the entry when absent. -/
def groupInsert : GroupMap → fingerprintedDevice → GroupMap
  | [], dev => [(dev.model, [dev])]
  | (k, l) :: rest, dev =>
    if k = dev.model then (k, l ++ [dev]) :: rest
    else (k, l) :: groupInsert rest dev

/-- Body of the merge loop (source lines 122-125): one pass over the
discovered devices extends `deviceListByDeviceName` and upserts
`serialNumber → address` into the device cache. -/
def mergeStep (acc : GroupMap × GoStringMap) (dev : fingerprintedDevice) :
    GroupMap × GoStringMap :=
  (groupInsert acc.1 dev, alistUpsert acc.2 dev.serial_nbr dev.address)

/-- The grouping map built by the merge loop, starting from the empty map. -/
def deviceListByDeviceName (devs : List fingerprintedDevice) : GroupMap :=
  (devs.foldl mergeStep ([], [])).1

/-- The device cache after the merge loop upserts every discovered device. -/
def mergeDevices (cache : GoStringMap) (devs : List fingerprintedDevice) :
    GoStringMap :=
  (devs.foldl mergeStep ([], cache)).2

/-- A scheduler-facing device record (`device.Device`): external ID (the
serial number) and health flag. `HwLocality` is always `nil` and omitted. -/
structure Device where
  ID : String
  Healthy : Bool
  deriving DecidableEq, Repr

/-- A device group (`device.DeviceGroup`). The Go field `Type` is a Lean
keyword and is embedded as `DType`; `Attributes` is always the empty map and
omitted. -/
structure DeviceGroup where
  Vendor : String
  DType : String
  Name : String
  Devices : List Device
  deriving DecidableEq, Repr

/-- Source function `deviceGroupFromFingerprintData` (lines 137-163): `nil`
(here `none`) for an empty device list, otherwise the group named by the
model with constant vendor and type and one healthy member per device, in
list order. -/
def deviceGroupFromFingerprintData (groupName : String)
    (deviceList : List fingerprintedDevice) : Option DeviceGroup :=
  if deviceList.length = 0 then none
  else some
    { Vendor := vendor
      DType := deviceType
      Name := groupName
      Devices := deviceList.map fun dev => { ID := dev.serial_nbr, Healthy := true } }

/-- A `device.FingerprintResponse` (`device.NewFingerprint(deviceGroups...)`):
the slice of group pointers, a `nil` pointer embedded as `none`. -/
structure FingerprintResponse where
  Devices : List (Option DeviceGroup)
  deriving DecidableEq, Repr

/-- State a poll cycle leaves behind: the updated device cache and the
responses sent on the channel during the cycle. -/
structure CycleResult where
  cache : GoStringMap
  events : List FingerprintResponse
  deriving DecidableEq, Repr

/-- One poll cycle, `writeFingerprintToChannel` (source lines 47-134), as a
function of the prior cache state and the outcome of `aravis.GetDevices()`
(which returns a `nil` slice alongside a non-nil error; the error is only
logged and the cycle continues with the nil slice). The cycle reads
attributes, runs the merge loop, builds one group per map entry — appending
`deviceGroupFromFingerprintData`'s result unchecked, nil or not — and sends
exactly one response. -/
def writeFingerprintToChannel (cache : GoStringMap)
    (enumerated : Except String (List ArvDevice)) : CycleResult :=
  let devs : List ArvDevice :=
    match enumerated with
    | .error _ => []
    | .ok l => l
  let discoveredDevices := discoverDevices devs
  let merged := discoveredDevices.foldl mergeStep ([], cache)
  let deviceGroups : List (Option DeviceGroup) :=
    merged.1.map fun p => deviceGroupFromFingerprintData p.1 p.2
  { cache := merged.2, events := [{ Devices := deviceGroups }] }

/-- Cache state after a sequence of poll cycles: `doFingerprint` calls
`writeFingerprintToChannel` once per tick, threading `d.devices`. -/
def runCycles (cache : GoStringMap)
    (cycles : List (Except String (List ArvDevice))) : GoStringMap :=
  cycles.foldl (fun c enumerated => (writeFingerprintToChannel c enumerated).cache) cache

/-- Devices surviving (fully read in) one enumeration outcome: none when
`GetDevices` failed (it returns a nil slice then), otherwise those handles
whose seven attribute reads all succeeded. -/
def survivingDevices (enumerated : Except String (List ArvDevice)) :
    List fingerprintedDevice :=
  match enumerated with
  | .error _ => []
  | .ok l => discoverDevices l

/-- Serial numbers of the devices surviving one enumeration outcome — the
keys the specified cache invariant would keep after that cycle. -/
def survivingSerials (enumerated : Except String (List ArvDevice)) : List String :=
  (survivingDevices enumerated).map fun d => d.serial_nbr

/-- Example enumeration handle used to instantiate theorems at concrete
inputs: a fully readable camera. -/
def sampleDevA : ArvDevice :=
  ⟨some "id-A", some "phys-A", some "camX", some "A1", some "tis",
    some "10.0.0.1", some "gv"⟩

/-- Second fully readable example handle, same model as `sampleDevA`. -/
def sampleDevB : ArvDevice :=
  ⟨some "id-B", some "phys-B", some "camX", some "A2", some "tis",
    some "10.0.0.2", some "gv"⟩

/-- Example handle whose physical-id attribute read fails. -/
def sampleDevBad : ArvDevice :=
  ⟨some "id-C", none, some "camY", some "A3", some "tis",
    some "10.0.0.3", some "gv"⟩

/-- Steps of `writeFingerprintToChannel` in source order (lines 47-134):
`d.deviceLock.Lock()` is the first statement and the deferred
`d.deviceLock.Unlock()` runs last, after the channel send. -/
inductive CycleAction
  | lockAcquire
  | updateDeviceList
  | getDevices
  | readDeviceAttributes
  | mergeIntoCache
  | buildGroups
  | emitEvent
  | lockRelease
  deriving DecidableEq, Repr

/-- Whether an action is part of hardware enumeration I/O: the rescan, the
listing, or the per-device attribute reads. -/
def isEnumerationIO : CycleAction → Bool
  | .updateDeviceList => true
  | .getDevices => true
  | .readDeviceAttributes => true
  | _ => false

/-- The trace of one `writeFingerprintToChannel` call, in the order its
statements execute. -/
def cycleActions : List CycleAction :=
  [.lockAcquire, .updateDeviceList, .getDevices, .readDeviceAttributes,
   .mergeIntoCache, .buildGroups, .emitEvent, .lockRelease]

/-- Number of exclusive-lock acquisitions minus releases over a trace
prefix. -/
def locksHeldAfter (l : List CycleAction) : Int :=
  l.foldl
    (fun n a =>
      match a with
      | .lockAcquire => n + 1
      | .lockRelease => n - 1
      | _ => n)
    0

/-- Whether the exclusive lock is held when the action at position `i`
executes: some acquisition among the preceding actions is unreleased. -/
def heldAt (l : List CycleAction) (i : Nat) : Bool :=
  0 < locksHeldAfter (l.take i)

/-- The property the specification asserts of the poll cycle: every
enumeration-I/O action executes while the exclusive lock is not held. -/
def enumerationOutsideLock (l : List CycleAction) : Prop :=
  ∀ i : Nat, ∀ a : CycleAction, l.get? i = some a → isEnumerationIO a = true →
    heldAt l i = false

/-- All `Option DeviceGroup` pointers sent on the channel during one poll
cycle (each cycle sends one response holding its group slice). -/
def cycleEventGroups (cache : GoStringMap)
    (enumerated : Except String (List ArvDevice)) : List (Option DeviceGroup) :=
  ((writeFingerprintToChannel cache enumerated).events.map
    FingerprintResponse.Devices).flatten

/-! ## Association-list lemmas -/

theorem alistLookup_upsert_self (m : GoStringMap) (k v : String) :
    alistLookup (alistUpsert m k v) k = some v := by
  induction m with
  | nil => simp [alistUpsert, alistLookup]
  | cons p rest ih =>
    obtain ⟨k', v'⟩ := p
    by_cases h : k' = k
    · subst h
      simp [alistUpsert, alistLookup]
    · have h2 : ¬ k = k' := fun hk => h hk.symm
      simp [alistUpsert, alistLookup, h, h2, ih]

theorem alistLookup_upsert_ne (m : GoStringMap) (k v a : String) (h : a ≠ k) :
    alistLookup (alistUpsert m k v) a = alistLookup m a := by
  induction m with
  | nil => simp [alistUpsert, alistLookup, h]
  | cons p rest ih =>
    obtain ⟨k', v'⟩ := p
    by_cases hk : k' = k
    · subst hk
      simp [alistUpsert, alistLookup, h]
    · by_cases ha : a = k'
      · subst ha
        simp [alistUpsert, alistLookup, hk]
      · simp [alistUpsert, alistLookup, hk, ha, ih]

/-! ## Reservation lemmas -/

/-- When every requested identifier resolves in the snapshot the
response-building loop reads, the loop succeeds, and its environment map ends
holding the serial number and address of the last identifier processed (each
iteration assigns the same two fixed keys). -/
theorem buildEnvs_all_found (devices2 : GoStringMap) :
    ∀ (ids : List String) (envs0 : GoStringMap),
      (∀ id ∈ ids, (alistLookup devices2 id).isSome = true) →
      ∃ envs, buildEnvs devices2 ids envs0 = .ok envs ∧
        ∀ lastId, ids.getLast? = some lastId →
          alistLookup envs deviceSerialNbr = some lastId ∧
          alistLookup envs deviceAddress = alistLookup devices2 lastId := by
  intro ids
  induction ids with
  | nil =>
    intro envs0 _
    exact ⟨envs0, rfl, by simp⟩
  | cons a rest ih =>
    intro envs0 hall
    have ha : (alistLookup devices2 a).isSome = true := hall a (by simp)
    obtain ⟨addr, haddr⟩ := Option.isSome_iff_exists.mp ha
    have hrest : ∀ id ∈ rest, (alistLookup devices2 id).isSome = true :=
      fun id hid => hall id (by simp [hid])
    obtain ⟨envs, henv, hlast⟩ :=
      ih (alistUpsert (alistUpsert envs0 deviceSerialNbr a) deviceAddress addr) hrest
    refine ⟨envs, by simp [buildEnvs, haddr, henv], ?_⟩
    intro lastId hl
    cases rest with
    | nil =>
      have hla : lastId = a := by simpa using hl.symm
      subst hla
      have hx : envs = alistUpsert (alistUpsert envs0 deviceSerialNbr lastId)
          deviceAddress addr := by
        have h2 := henv
        simp only [buildEnvs] at h2
        exact (Except.ok.inj h2).symm
      subst hx
      have hne : deviceSerialNbr ≠ deviceAddress := by decide
      constructor
      · rw [alistLookup_upsert_ne _ _ _ _ hne, alistLookup_upsert_self]
      · rw [alistLookup_upsert_self, haddr]
    | cons b rest2 =>
      exact hlast lastId (by rwa [List.getLast?_cons_cons] at hl)

/-- Reformulation of "no identifier was collected as missing": each requested
identifier resolves in the membership-pass snapshot. -/
theorem all_found_of_filter_eq_nil (devices1 : GoStringMap) (ids : List String)
    (h : ids.filter (fun id => (alistLookup devices1 id).isNone) = []) :
    ∀ id ∈ ids, (alistLookup devices1 id).isSome = true := by
  intro id hid
  have hnot := List.filter_eq_nil_iff.mp h id hid
  cases hlk : alistLookup devices1 id with
  | none => simp [hlk] at hnot
  | some v => simp

/-! ## Claim theorems: the reservation validator -/

/-- Claim C1, counterexample. With the cache holding devices `A` and `B` and
both requested, `Reserve` succeeds but its response carries only device `B`'s
serial number and address: the two fixed environment keys were overwritten on
every iteration, so requested identifier `A` has no result entry of its own —
refuting "exactly one result entry per requested identifier". -/
theorem reserve_single_entry_counterexample :
    Reserve true [("A", "10.0.0.1"), ("B", "10.0.0.2")] ["A", "B"] =
      .ok { envs := [(deviceSerialNbr, "B"), (deviceAddress, "10.0.0.2")],
            mounts := [], deviceSpecs := [] } ∧
    reserveEnv (Reserve true [("A", "10.0.0.1"), ("B", "10.0.0.2")] ["A", "B"])
      deviceSerialNbr ≠ some "A" ∧
    reserveEnv (Reserve true [("A", "10.0.0.1"), ("B", "10.0.0.2")] ["A", "B"])
      deviceAddress ≠ some "10.0.0.1" := by
  refine ⟨rfl, ?_, ?_⟩ <;> decide

/-- Claim C1, amended: a successful reservation (plugin enabled, no requested
identifier missing from the cache) returns a response whose environment
carries the serial number and resolved address of the *last* requested
identifier; entries for earlier identifiers are overwritten because the two
environment keys are fixed. -/
theorem reserve_env_carries_last_requested (devices : GoStringMap)
    (deviceIDs : List String) (lastId : String)
    (hlast : deviceIDs.getLast? = some lastId)
    (hmiss : deviceIDs.filter (fun id => (alistLookup devices id).isNone) = []) :
    reserveOk (Reserve true devices deviceIDs) = true ∧
    reserveEnv (Reserve true devices deviceIDs) deviceSerialNbr = some lastId ∧
    reserveEnv (Reserve true devices deviceIDs) deviceAddress =
      alistLookup devices lastId := by
  have hne : deviceIDs ≠ [] := by
    intro h
    subst h
    simp at hlast
  have hlen : ¬ deviceIDs.length = 0 := by
    simpa [List.length_eq_zero] using hne
  have hall := all_found_of_filter_eq_nil devices deviceIDs hmiss
  obtain ⟨envs, henv, hprop⟩ := buildEnvs_all_found devices deviceIDs [] hall
  obtain ⟨h1, h2⟩ := hprop lastId hlast
  simp only [Reserve, ReserveTwoPhase, hlen, if_false, Bool.not_true, hmiss,
    List.length_nil, ne_eq, not_true_eq_false, if_true, henv]
  simp [reserveOk, reserveEnv, h1, h2]

/-- Claim C2, counterexample. With the plugin disabled, a reservation request
for the empty identifier set succeeds with an empty reservation: the
empty-input check precedes the enabled check, refuting "fails with the
disabled error regardless of input, including the empty set". -/
theorem reserve_disabled_empty_counterexample :
    Reserve false [] [] = .ok { envs := [], mounts := [], deviceSpecs := [] } ∧
    Reserve false [] [] ≠ .error .pluginDisabled := by
  exact ⟨rfl, fun h => by simp [Reserve, ReserveTwoPhase] at h⟩

/-- Claim C2, amended: for every *non-empty* set of requested identifiers,
a disabled plugin makes `Reserve` fail with the disabled error (whatever the
two cache snapshots hold); the empty set short-circuits to an empty
successful reservation before the enabled flag is consulted. -/
theorem reserve_disabled_nonempty (devices1 devices2 : GoStringMap)
    (deviceIDs : List String) (h : deviceIDs ≠ []) :
    ReserveTwoPhase false devices1 devices2 deviceIDs = .error .pluginDisabled := by
  have hlen : ¬ deviceIDs.length = 0 := by
    simpa [List.length_eq_zero] using h
  simp [ReserveTwoPhase, hlen]

/-- Claim C5: when the membership pass finds at least one requested
identifier absent from the cache snapshot, `Reserve` fails with one
aggregated `reservationError` carrying exactly the absent identifiers in
request order — in particular every absent identifier is named in it — and
returns no reservation. -/
theorem reserve_missing_aggregated (devices1 devices2 : GoStringMap)
    (deviceIDs missing : List String)
    (hdef : missing = deviceIDs.filter fun id => (alistLookup devices1 id).isNone)
    (hne : missing ≠ []) :
    ReserveTwoPhase true devices1 devices2 deviceIDs =
      .error (.reservationError missing) ∧
    ∀ id ∈ deviceIDs, alistLookup devices1 id = none → id ∈ missing := by
  subst hdef
  have hids : ¬ deviceIDs.length = 0 := by
    intro h0
    rw [List.length_eq_zero] at h0
    subst h0
    simp at hne
  refine ⟨?_, ?_⟩
  · have hlen : ¬ (deviceIDs.filter fun id =>
        (alistLookup devices1 id).isNone).length = 0 := by
      simpa [List.length_eq_zero] using hne
    simp [ReserveTwoPhase, hids, hlen]
  · intro id hid hnone
    exact List.mem_filter.mpr ⟨hid, by simp [hnone]⟩

/-- Claim C10: if the membership pass found nothing missing and the device
map is the same at the second, lockless read as at the first, the
response-building loop's "unknown device" branch is unreachable: `Reserve`
never returns that error. -/
theorem reserve_unknown_branch_unreachable (enabled : Bool)
    (devices1 devices2 : GoStringMap) (deviceIDs : List String)
    (hsame : devices2 = devices1)
    (hmiss : deviceIDs.filter (fun id => (alistLookup devices1 id).isNone) = [])
    (s : String) :
    ReserveTwoPhase enabled devices1 devices2 deviceIDs ≠
      .error (.unknownDevice s) := by
  subst hsame
  by_cases h0 : deviceIDs.length = 0
  · simp [ReserveTwoPhase, h0]
  · cases enabled with
    | false => simp [ReserveTwoPhase, h0]
    | true =>
      have hall := all_found_of_filter_eq_nil devices2 deviceIDs hmiss
      obtain ⟨envs, henv, _⟩ := buildEnvs_all_found devices2 deviceIDs [] hall
      simp [ReserveTwoPhase, h0, hmiss, henv]

/-- Concrete instantiation for `reserve_env_carries_last_requested`. -/
theorem reserve_env_carries_last_requested_witness :
    reserveOk (Reserve true [("A1", "10.0.0.1")] ["A1"]) = true ∧
    reserveEnv (Reserve true [("A1", "10.0.0.1")] ["A1"]) deviceSerialNbr =
      some "A1" ∧
    reserveEnv (Reserve true [("A1", "10.0.0.1")] ["A1"]) deviceAddress =
      alistLookup [("A1", "10.0.0.1")] "A1" :=
  reserve_env_carries_last_requested [("A1", "10.0.0.1")] ["A1"] "A1"
    (by decide) (by decide)

/-- Concrete instantiation for `reserve_disabled_nonempty`. -/
theorem reserve_disabled_nonempty_witness :
    ReserveTwoPhase false [] [] ["A1"] = .error .pluginDisabled :=
  reserve_disabled_nonempty [] [] ["A1"] (by decide)

/-- Concrete instantiation for `reserve_missing_aggregated`. -/
theorem reserve_missing_aggregated_witness :
    ReserveTwoPhase true [("A1", "10.0.0.1")] [("A1", "10.0.0.1")] ["A1", "B9"] =
      .error (.reservationError ["B9"]) ∧
    ∀ id ∈ ["A1", "B9"], alistLookup [("A1", "10.0.0.1")] id = none →
      id ∈ ["B9"] :=
  reserve_missing_aggregated [("A1", "10.0.0.1")] [("A1", "10.0.0.1")]
    ["A1", "B9"] ["B9"] (by decide) (by decide)

/-- Concrete instantiation for `reserve_unknown_branch_unreachable`. -/
theorem reserve_unknown_branch_unreachable_witness :
    ReserveTwoPhase true [("A1", "10.0.0.1")] [("A1", "10.0.0.1")] ["A1"] ≠
      .error (.unknownDevice "A1") :=
  reserve_unknown_branch_unreachable true [("A1", "10.0.0.1")]
    [("A1", "10.0.0.1")] ["A1"] rfl (by decide) "A1"

/-! ## Grouping lemmas -/

theorem groupInsert_keys (m : GroupMap) (dev : fingerprintedDevice) :
    (groupInsert m dev).map Prod.fst =
      if dev.model ∈ m.map Prod.fst then m.map Prod.fst
      else m.map Prod.fst ++ [dev.model] := by
  induction m with
  | nil => simp [groupInsert]
  | cons p rest ih =>
    obtain ⟨k, l⟩ := p
    by_cases h : k = dev.model
    · subst h
      simp [groupInsert]
    · have hne : ¬ dev.model = k := fun hh => h hh.symm
      by_cases h2 : dev.model ∈ rest.map Prod.fst <;>
        simp [groupInsert, h, ih, h2, List.mem_cons, hne]

theorem groupInsert_keys_nodup (m : GroupMap) (dev : fingerprintedDevice)
    (h : (m.map Prod.fst).Nodup) : ((groupInsert m dev).map Prod.fst).Nodup := by
  rw [groupInsert_keys]
  by_cases h2 : dev.model ∈ m.map Prod.fst
  · simpa [h2] using h
  · rw [if_neg h2, List.nodup_append]
    refine ⟨h, List.nodup_singleton _, ?_⟩
    intro a ha hb
    rw [List.mem_singleton] at hb
    subst hb
    exact h2 ha

theorem alistLookup_groupInsert (m : GroupMap) (dev : fingerprintedDevice)
    (k : String) :
    alistLookup (groupInsert m dev) k =
      if k = dev.model then some ((alistLookup m k).getD [] ++ [dev])
      else alistLookup m k := by
  induction m with
  | nil =>
    by_cases h : k = dev.model <;> simp [groupInsert, alistLookup, h]
  | cons p rest ih =>
    obtain ⟨ka, la⟩ := p
    by_cases h : ka = dev.model
    · by_cases hk : k = ka
      · have hkm : k = dev.model := by rw [hk, h]
        simp [groupInsert, alistLookup, h, hk, hkm]
      · have hkm : ¬ k = dev.model := fun hh => hk (by rw [hh, ← h])
        simp [groupInsert, alistLookup, h, hk, hkm]
    · by_cases hk : k = ka
      · have hkm : ¬ k = dev.model := fun hh => h (by rw [← hk, hh])
        simp [groupInsert, alistLookup, h, hk, hkm]
      · simp [groupInsert, alistLookup, h, hk, ih]

theorem foldl_mergeStep_fst (devs : List fingerprintedDevice) :
    ∀ (m : GroupMap) (c : GoStringMap),
      (devs.foldl mergeStep (m, c)).1 = devs.foldl groupInsert m := by
  induction devs with
  | nil =>
    intro m c
    rfl
  | cons d rest ih =>
    intro m c
    simpa [mergeStep] using ih (groupInsert m d) (alistUpsert c d.serial_nbr d.address)

theorem foldl_groupInsert_keys_mem (devs : List fingerprintedDevice) :
    ∀ (m : GroupMap) (k : String),
      k ∈ (devs.foldl groupInsert m).map Prod.fst ↔
        k ∈ m.map Prod.fst ∨ k ∈ devs.map fun d => d.model := by
  induction devs with
  | nil => simp
  | cons d rest ih =>
    intro m k
    rw [List.foldl_cons, ih, List.map_cons, List.mem_cons]
    have hins : k ∈ (groupInsert m d).map Prod.fst ↔
        k ∈ m.map Prod.fst ∨ k = d.model := by
      rw [groupInsert_keys]
      by_cases h2 : d.model ∈ m.map Prod.fst
      · rw [if_pos h2]
        exact ⟨Or.inl, fun h => h.elim id fun e => e ▸ h2⟩
      · rw [if_neg h2, List.mem_append, List.mem_singleton]
    rw [hins]
    tauto

theorem foldl_groupInsert_keys_nodup (devs : List fingerprintedDevice) :
    ∀ m : GroupMap, (m.map Prod.fst).Nodup →
      ((devs.foldl groupInsert m).map Prod.fst).Nodup := by
  induction devs with
  | nil =>
    intro m h
    exact h
  | cons d rest ih =>
    intro m h
    exact ih (groupInsert m d) (groupInsert_keys_nodup m d h)

theorem alistLookup_foldl_groupInsert (devs : List fingerprintedDevice) :
    ∀ (m : GroupMap) (k : String),
      alistLookup (devs.foldl groupInsert m) k =
        match alistLookup m k with
        | some l => some (l ++ devs.filter fun d => d.model = k)
        | none =>
          if (devs.filter fun d => d.model = k) = [] then none
          else some (devs.filter fun d => d.model = k) := by
  induction devs with
  | nil =>
    intro m k
    cases h : alistLookup m k <;> simp [h]
  | cons d rest ih =>
    intro m k
    rw [List.foldl_cons, ih, alistLookup_groupInsert]
    by_cases hk : k = d.model
    · rw [if_pos hk]
      have hfc : (d :: rest).filter (fun x => x.model = k) =
          d :: rest.filter (fun x => x.model = k) :=
        List.filter_cons_of_pos (by simp [hk])
      rw [hfc]
      cases h : alistLookup m k with
      | some l => simp only [h, Option.getD_some]; simp [List.append_assoc]
      | none => simp only [h, Option.getD_none]; simp
    · rw [if_neg hk]
      have hfc : (d :: rest).filter (fun x => x.model = k) =
          rest.filter (fun x => x.model = k) :=
        List.filter_cons_of_neg (by simp; exact fun hh => hk hh.symm)
      rw [hfc]

theorem mem_iff_alistLookup {β : Type} (k : String) (v : β) :
    ∀ m : List (String × β), (m.map Prod.fst).Nodup →
      ((k, v) ∈ m ↔ alistLookup m k = some v) := by
  intro m
  induction m with
  | nil => simp [alistLookup]
  | cons p rest ih =>
    intro hnd
    obtain ⟨k', v'⟩ := p
    simp only [List.map_cons, List.nodup_cons] at hnd
    by_cases hk : k = k'
    · subst hk
      have hlk : alistLookup ((k, v') :: rest) k = some v' := by
        simp [alistLookup]
      rw [hlk]
      constructor
      · intro h
        rcases List.mem_cons.mp h with h | h
        · rw [Prod.mk.injEq] at h
          rw [h.2]
        · exact absurd (List.mem_map_of_mem Prod.fst h) hnd.1
      · intro h
        rw [Option.some.injEq] at h
        subst h
        exact List.mem_cons_self _ _
    · rw [List.mem_cons]
      simp only [alistLookup, if_neg hk]
      rw [← ih hnd.2]
      constructor
      · intro h
        rcases h with h | h
        · exact absurd (congrArg Prod.fst h) hk
        · exact h
      · exact Or.inr

/-- Structure of one entry of the grouping map: its member list is exactly
the surviving devices of its model, in first-seen order, and is never
empty. -/
theorem mem_deviceListByDeviceName (ds : List fingerprintedDevice)
    (p : String × List fingerprintedDevice) (hp : p ∈ deviceListByDeviceName ds) :
    p.2 = ds.filter (fun d => d.model = p.1) ∧ p.2 ≠ [] := by
  have hnd : ((deviceListByDeviceName ds).map Prod.fst).Nodup := by
    rw [deviceListByDeviceName, foldl_mergeStep_fst]
    exact foldl_groupInsert_keys_nodup ds [] (by simp)
  obtain ⟨k, l⟩ := p
  have hlk : alistLookup (deviceListByDeviceName ds) k = some l :=
    (mem_iff_alistLookup k l _ hnd).mp hp
  rw [deviceListByDeviceName, foldl_mergeStep_fst, alistLookup_foldl_groupInsert] at hlk
  simp only [alistLookup] at hlk
  by_cases hf : (ds.filter fun d => d.model = k) = []
  · simp [hf] at hlk
  · simp only [hf, if_false, Option.some.injEq] at hlk
    subst hlk
    exact ⟨rfl, hf⟩

/-! ## Claim theorems: grouping and the poll cycle -/

/-- Claim C6: for every list of surviving device descriptors the grouping
pass produces exactly one map entry per distinct model (keys are free of
duplicates and are exactly the models that occur), and the group built from
each entry is named by the model, carries the fixed vendor and type
constants, and lists the members `{id := serial number, healthy := true}` of
that model in first-seen order. -/
theorem grouping_one_group_per_model (ds : List fingerprintedDevice) :
    ((deviceListByDeviceName ds).map Prod.fst).Nodup ∧
    (∀ mdl, mdl ∈ (deviceListByDeviceName ds).map Prod.fst ↔
      mdl ∈ ds.map fun d => d.model) ∧
    (∀ p ∈ deviceListByDeviceName ds,
      deviceGroupFromFingerprintData p.1 p.2 = some
        { Vendor := vendor
          DType := deviceType
          Name := p.1
          Devices := (ds.filter fun d => d.model = p.1).map
            fun d => { ID := d.serial_nbr, Healthy := true } }) := by
  refine ⟨?_, ?_, ?_⟩
  · rw [deviceListByDeviceName, foldl_mergeStep_fst]
    exact foldl_groupInsert_keys_nodup ds [] (by simp)
  · intro mdl
    rw [deviceListByDeviceName, foldl_mergeStep_fst]
    simpa using foldl_groupInsert_keys_mem ds [] mdl
  · intro p hp
    obtain ⟨hfilter, hne⟩ := mem_deviceListByDeviceName ds p hp
    have hlen : ¬ p.2.length = 0 := by simpa [List.length_eq_zero] using hne
    rw [deviceGroupFromFingerprintData, if_neg hlen, hfilter]

/-- Claim C7: in every poll cycle, each group pointer sent on the channel is
non-nil with a non-empty member list, and the serial numbers collected over
all sent groups are exactly the serial numbers of the cycle's surviving
devices. -/
theorem groups_nonempty_and_cover (cache : GoStringMap)
    (enumerated : Except String (List ArvDevice)) :
    (∀ og ∈ cycleEventGroups cache enumerated,
      ∃ g, og = some g ∧ g.Devices ≠ []) ∧
    (∀ s, (∃ og ∈ cycleEventGroups cache enumerated,
        ∃ g, og = some g ∧ ∃ d ∈ g.Devices, d.ID = s) ↔
      s ∈ survivingSerials enumerated) := by
  have hgr : cycleEventGroups cache enumerated =
      (deviceListByDeviceName (survivingDevices enumerated)).map
        fun p => deviceGroupFromFingerprintData p.1 p.2 := by
    cases enumerated <;>
      simp [cycleEventGroups, writeFingerprintToChannel, survivingDevices,
        deviceListByDeviceName, foldl_mergeStep_fst, discoverDevices]
  rw [hgr]
  constructor
  · intro og hog
    obtain ⟨p, hp, hpe⟩ := List.mem_map.mp hog
    obtain ⟨hfilter, hne⟩ := mem_deviceListByDeviceName _ p hp
    have hlen : ¬ p.2.length = 0 := by simpa [List.length_eq_zero] using hne
    rw [deviceGroupFromFingerprintData, if_neg hlen] at hpe
    refine ⟨{ Vendor := vendor, DType := deviceType, Name := p.1,
              Devices := p.2.map (fun dev =>
                { ID := dev.serial_nbr, Healthy := true }) },
      hpe.symm, ?_⟩
    intro hdev
    rw [List.map_eq_nil_iff] at hdev
    exact hne hdev
  · intro s
    constructor
    · rintro ⟨og, hog, g, hge, d, hd, hds⟩
      obtain ⟨p, hp, hpe⟩ := List.mem_map.mp hog
      obtain ⟨hfilter, hne⟩ := mem_deviceListByDeviceName _ p hp
      have hlen : ¬ p.2.length = 0 := by simpa [List.length_eq_zero] using hne
      rw [deviceGroupFromFingerprintData, if_neg hlen] at hpe
      rw [hge] at hpe
      have hg : g =
          { Vendor := vendor, DType := deviceType, Name := p.1,
            Devices := p.2.map (fun dev =>
              { ID := dev.serial_nbr, Healthy := true }) } :=
        (Option.some.inj hpe).symm
      subst hg
      obtain ⟨fd, hfd, hfde⟩ := List.mem_map.mp hd
      have hmem : fd ∈ survivingDevices enumerated := by
        rw [hfilter] at hfd
        exact (List.mem_filter.mp hfd).1
      rw [survivingSerials]
      refine List.mem_map.mpr ⟨fd, hmem, ?_⟩
      rw [← hds, ← hfde]
    · intro hs
      obtain ⟨fd, hfd, hfds⟩ := List.mem_map.mp hs
      have hkey : fd.model ∈
          ((deviceListByDeviceName (survivingDevices enumerated)).map Prod.fst) := by
        rw [deviceListByDeviceName, foldl_mergeStep_fst]
        refine (foldl_groupInsert_keys_mem _ [] fd.model).mpr ?_
        exact Or.inr (List.mem_map.mpr ⟨fd, hfd, rfl⟩)
      obtain ⟨p, hp, hpk⟩ := List.mem_map.mp hkey
      obtain ⟨hfilter, hne⟩ := mem_deviceListByDeviceName _ p hp
      have hlen : ¬ p.2.length = 0 := by simpa [List.length_eq_zero] using hne
      refine ⟨deviceGroupFromFingerprintData p.1 p.2, List.mem_map.mpr ⟨p, hp, rfl⟩,
        { Vendor := vendor, DType := deviceType, Name := p.1,
          Devices := p.2.map (fun d => { ID := d.serial_nbr, Healthy := true }) },
        by rw [deviceGroupFromFingerprintData, if_neg hlen], ?_⟩
      refine ⟨{ ID := fd.serial_nbr, Healthy := true }, ?_, hfds⟩
      refine List.mem_map.mpr ⟨fd, ?_, rfl⟩
      rw [hfilter]
      exact List.mem_filter.mpr ⟨hfd, by simp [hpk]⟩

/-- A handle with any failed identity-attribute read yields no descriptor:
the loop body hits a `continue` before the append. -/
theorem readFingerprintedDevice_none_of_fail (dev : ArvDevice)
    (h : dev.id = none ∨ dev.physicalId = none ∨ dev.model = none ∨
      dev.serialNbr = none ∨ dev.vendor = none ∨ dev.address = none ∨
      dev.protocol = none) :
    readFingerprintedDevice dev = none := by
  obtain ⟨f1, f2, f3, f4, f5, f6, f7⟩ := dev
  cases f1 with
  | none => rfl
  | some v1 =>
    cases f2 with
    | none => rfl
    | some v2 =>
      cases f3 with
      | none => rfl
      | some v3 =>
        cases f4 with
        | none => rfl
        | some v4 =>
          cases f5 with
          | none => rfl
          | some v5 =>
            cases f6 with
            | none => rfl
            | some v6 =>
              cases f7 with
              | none => rfl
              | some v7 => simp at h

/-- Claim C8: a handle whose attribute read fails contributes nothing to the
cycle — removing it from the enumerated list leaves the whole cycle result
(cache update, groups, emitted response) unchanged — and the remaining
handles are still processed. -/
theorem failed_read_skips_device_only (cache : GoStringMap)
    (pre post : List ArvDevice) (bad : ArvDevice)
    (hfail : bad.id = none ∨ bad.physicalId = none ∨ bad.model = none ∨
      bad.serialNbr = none ∨ bad.vendor = none ∨ bad.address = none ∨
      bad.protocol = none) :
    writeFingerprintToChannel cache (.ok (pre ++ bad :: post)) =
      writeFingerprintToChannel cache (.ok (pre ++ post)) := by
  have hnone := readFingerprintedDevice_none_of_fail bad hfail
  have hdd : discoverDevices (pre ++ bad :: post) = discoverDevices (pre ++ post) := by
    induction pre with
    | nil => simp [discoverDevices, hnone]
    | cons d rest ih =>
      cases hr : readFingerprintedDevice d <;>
        simp [List.cons_append, discoverDevices, hr, ih]
  simp only [writeFingerprintToChannel, hdd]

/-- Concrete instantiation for `failed_read_skips_device_only`. -/
theorem failed_read_skips_device_only_witness :
    writeFingerprintToChannel [] (.ok [sampleDevA, sampleDevBad, sampleDevB]) =
      writeFingerprintToChannel [] (.ok [sampleDevA, sampleDevB]) :=
  failed_read_skips_device_only [] [sampleDevA] [sampleDevB] sampleDevBad
    (Or.inr (Or.inl rfl))

/-- Claim C9: every poll cycle sends exactly one fingerprint response, whose
groups are the ones built from the cycle's surviving devices; a cycle whose
enumeration failed, or found zero devices, still sends one response, with
zero groups. -/
theorem cycle_emits_one_event (cache : GoStringMap)
    (enumerated : Except String (List ArvDevice)) (errText : String) :
    (writeFingerprintToChannel cache enumerated).events.length = 1 ∧
    (writeFingerprintToChannel cache enumerated).events =
      [{ Devices := (deviceListByDeviceName (survivingDevices enumerated)).map
          (fun p => deviceGroupFromFingerprintData p.1 p.2) }] ∧
    (writeFingerprintToChannel cache (.error errText)).events =
      [{ Devices := [] }] ∧
    (writeFingerprintToChannel cache (.ok [])).events = [{ Devices := [] }] := by
  refine ⟨rfl, ?_, rfl, rfl⟩
  cases enumerated <;>
    simp [writeFingerprintToChannel, survivingDevices, deviceListByDeviceName,
      foldl_mergeStep_fst, discoverDevices]

/-- Claim C4, the code's behavior at the failing input: one cycle discovers
device `A1`, the next cycle discovers nothing, yet `A1` is still a cache key
afterward, while the latest cycle's surviving set is empty — the merge loop
only upserts and never removes keys of vanished devices. -/
theorem cache_retains_vanished_device :
    runCycles [] [.ok [sampleDevA], .ok []] = [("A1", "10.0.0.1")] ∧
    survivingSerials (.ok ([] : List ArvDevice)) = [] :=
  ⟨rfl, rfl⟩

/-- Claim C3, counterexample: the poll cycle's trace acquires the exclusive
lock as its very first action and releases it last, so hardware enumeration
does not happen outside the lock — the property `enumerationOutsideLock`
fails on the cycle's trace (the `GetDevices` call at position 2 runs with
the lock held). -/
theorem enumeration_not_outside_lock : ¬ enumerationOutsideLock cycleActions := by
  intro h
  exact absurd (h 2 .getDevices rfl rfl) (by decide)

/-- Claim C3, amended: every enumeration-I/O action of the poll cycle — the
rescan, the device listing and the per-device attribute reads — executes
while the cache's exclusive lock is held, so readers contend with the poller
for the whole duration of enumeration I/O, not merely for the merge step. -/
theorem enumeration_under_exclusive_lock (i : Nat) (a : CycleAction)
    (hget : cycleActions.get? i = some a) (hio : isEnumerationIO a = true) :
    heldAt cycleActions i = true := by
  have hlen : i < 8 := by
    by_contra hge
    push_neg at hge
    have hnone : cycleActions.get? i = none :=
      List.get?_eq_none.mpr (by simpa [cycleActions] using hge)
    rw [hnone] at hget
    cases hget
  interval_cases i <;>
    simp only [cycleActions, List.get?, Option.some.injEq] at hget <;>
    subst hget <;>
    revert hio <;>
    decide

/-- Concrete instantiation for `enumeration_under_exclusive_lock`. -/
theorem enumeration_under_exclusive_lock_witness :
    heldAt cycleActions 2 = true :=
  enumeration_under_exclusive_lock 2 .getDevices rfl rfl

end Genicam
